import Mathlib

/-
  Verification development for the srclib-bash toolchain.

  The definitions below are a shallow embedding of the Go sources:
  - graph.go: the command-table-aware graph operation (graphFile, graphUnits,
    makeRef, makeDef, makeCommandRef, the manPages table);
  - scan.go: the scan operation (recursive walk collecting regular .sh files);
  and of Go's filepath.Ext as used by scan.

  Machine integers: Go's uint32 conversion is modelled on Int with an explicit
  % 2^32 (u32 below).  File contents are modelled as the token streams the
  external tokenizer (github.com/mkovacs/bash/scanner) produces: an Ident token
  carries its text and the byte offset just after the token (sc.Pos().Offset);
  every other non-EOF token kind is Tok.other, and EOF is the end of the list.
  The filesystem is an association list from file names to token streams; a
  missing entry models an os.Open failure.
-/

set_option maxRecDepth 8192

namespace SrclibBash

/-- Models the Go struct DefData of graph.go.  The Go field `Type` is written
`Type'` here because `Type` is reserved in Lean. -/
structure DefData where
  Name : String
  Keyword : String
  Type' : String
  Kind : String
  Separator : String
deriving DecidableEq, Repr

/-- Models srclib's graph.Def as populated by makeDef in graph.go: the DefKey
fields (UnitType, Unit, Path) are inlined, and the JSON-marshalled Data field is
kept as the structured DefData value. -/
structure Def where
  UnitType : String
  Unit : String
  Path : String
  Exported : Bool
  Data : DefData
  Name : String
  Kind : String
  File : String
  DefStart : Nat
  DefEnd : Nat
deriving DecidableEq, Repr

/-- Models srclib's graph.Ref as populated by makeRef / makeCommandRef in
graph.go.  `Def` is the isDefinitionSite flag; `End` is the exclusive end
offset.  Fields not set by the source keep Go's zero value "". -/
structure Ref where
  DefRepo : String
  DefUnitType : String
  DefUnit : String
  DefPath : String
  UnitType : String
  Unit : String
  Def : Bool
  File : String
  Start : Nat
  End : Nat
deriving DecidableEq, Repr

/-- Models srclib's graph.Output as used by graph.go (the Docs field is never
populated and is omitted). -/
structure Output where
  Defs : List Def
  Refs : List Ref
deriving DecidableEq, Repr

/-- Models srclib's unit.SourceUnit as used by scan.go and graph.go, with the
Key fields (Name, Type) and Info fields (Dir, Files) inlined.  The Go field
`Type` is written `Type'` here because `Type` is reserved in Lean. -/
structure SourceUnit where
  Name : String
  Type' : String
  Dir : String
  Files : List String
deriving DecidableEq, Repr

/-- A token as delivered by the external tokenizer: an identifier with its text
and the byte offset just after it, or any other non-EOF token (operator,
newline, ...).  EOF is modelled as the end of the token list. -/
inductive Tok where
  | ident (text : String) (offset : Nat)
  | other
deriving DecidableEq, Repr

/-- The two mutable locals of graphFile's scan loop: prevTok and prevIdent.
In the source prevTok is only ever scanner.Nothing (initial) or scanner.Ident
(the only token kind on which it is assigned), so it is modelled as the Bool
prevTokIsIdent. -/
structure ScanState where
  prevTokIsIdent : Bool
  prevIdent : String
deriving DecidableEq, Repr

/-- Go's uint32 conversion applied to an int expression: reduce mod 2^32. -/
def u32 (i : Int) : Nat := (i % (2 ^ 32)).toNat

/-- The manPages table of graph.go: the Command Table mapping POSIX utility
names to man-page identifiers, as an association list in source order. -/
def manPages : List (String × String) := [
  ("admin", "man1p/admin.1p.txt"),
  ("alias", "man1p/alias.1p.txt"),
  ("ar", "man1p/ar.1p.txt"),
  ("asa", "man1p/asa.1p.txt"),
  ("at", "man1p/at.1p.txt"),
  ("awk", "man1p/awk.1p.txt"),
  ("basename", "man1p/basename.1p.txt"),
  ("batch", "man1p/batch.1p.txt"),
  ("bc", "man1p/bc.1p.txt"),
  ("bg", "man1p/bg.1p.txt"),
  ("break", "man1p/break.1p.txt"),
  ("c99", "man1p/c99.1p.txt"),
  ("cal", "man1p/cal.1p.txt"),
  ("cat", "man1p/cat.1p.txt"),
  ("cd", "man1p/cd.1p.txt"),
  ("cflow", "man1p/cflow.1p.txt"),
  ("chgrp", "man1p/chgrp.1p.txt"),
  ("chmod", "man1p/chmod.1p.txt"),
  ("chown", "man1p/chown.1p.txt"),
  ("cksum", "man1p/cksum.1p.txt"),
  ("cmp", "man1p/cmp.1p.txt"),
  ("colon", "man1p/colon.1p.txt"),
  ("comm", "man1p/comm.1p.txt"),
  ("command", "man1p/command.1p.txt"),
  ("compress", "man1p/compress.1p.txt"),
  ("continue", "man1p/continue.1p.txt"),
  ("cp", "man1p/cp.1p.txt"),
  ("crontab", "man1p/crontab.1p.txt"),
  ("csplit", "man1p/csplit.1p.txt"),
  ("ctags", "man1p/ctags.1p.txt"),
  ("cut", "man1p/cut.1p.txt"),
  ("cxref", "man1p/cxref.1p.txt"),
  ("date", "man1p/date.1p.txt"),
  ("dd", "man1p/dd.1p.txt"),
  ("delta", "man1p/delta.1p.txt"),
  ("df", "man1p/df.1p.txt"),
  ("diff", "man1p/diff.1p.txt"),
  ("dirname", "man1p/dirname.1p.txt"),
  ("dot", "man1p/dot.1p.txt"),
  ("du", "man1p/du.1p.txt"),
  ("echo", "man1p/echo.1p.txt"),
  ("ed", "man1p/ed.1p.txt"),
  ("env", "man1p/env.1p.txt"),
  ("eval", "man1p/eval.1p.txt"),
  ("ex", "man1p/ex.1p.txt"),
  ("exec", "man1p/exec.1p.txt"),
  ("exit", "man1p/exit.1p.txt"),
  ("expand", "man1p/expand.1p.txt"),
  ("export", "man1p/export.1p.txt"),
  ("expr", "man1p/expr.1p.txt"),
  ("false", "man1p/false.1p.txt"),
  ("fc", "man1p/fc.1p.txt"),
  ("fg", "man1p/fg.1p.txt"),
  ("file", "man1p/file.1p.txt"),
  ("find", "man1p/find.1p.txt"),
  ("fold", "man1p/fold.1p.txt"),
  ("fort77", "man1p/fort77.1p.txt"),
  ("fuser", "man1p/fuser.1p.txt"),
  ("gencat", "man1p/gencat.1p.txt"),
  ("get", "man1p/get.1p.txt"),
  ("getconf", "man1p/getconf.1p.txt"),
  ("getopts", "man1p/getopts.1p.txt"),
  ("grep", "man1p/grep.1p.txt"),
  ("hash", "man1p/hash.1p.txt"),
  ("head", "man1p/head.1p.txt"),
  ("iconv", "man1p/iconv.1p.txt"),
  ("id", "man1p/id.1p.txt"),
  ("ipcrm", "man1p/ipcrm.1p.txt"),
  ("ipcs", "man1p/ipcs.1p.txt"),
  ("jobs", "man1p/jobs.1p.txt"),
  ("join", "man1p/join.1p.txt"),
  ("kill", "man1p/kill.1p.txt"),
  ("lex", "man1p/lex.1p.txt"),
  ("link", "man1p/link.1p.txt"),
  ("ln", "man1p/ln.1p.txt"),
  ("locale", "man1p/locale.1p.txt"),
  ("localedef", "man1p/localedef.1p.txt"),
  ("logger", "man1p/logger.1p.txt"),
  ("logname", "man1p/logname.1p.txt"),
  ("lp", "man1p/lp.1p.txt"),
  ("ls", "man1p/ls.1p.txt"),
  ("m4", "man1p/m4.1p.txt"),
  ("mailx", "man1p/mailx.1p.txt"),
  ("make", "man1p/make.1p.txt"),
  ("man", "man1p/man.1p.txt"),
  ("mesg", "man1p/mesg.1p.txt"),
  ("mkdir", "man1p/mkdir.1p.txt"),
  ("mkfifo", "man1p/mkfifo.1p.txt"),
  ("more", "man1p/more.1p.txt"),
  ("mv", "man1p/mv.1p.txt"),
  ("newgrp", "man1p/newgrp.1p.txt"),
  ("nice", "man1p/nice.1p.txt"),
  ("nl", "man1p/nl.1p.txt"),
  ("nm", "man1p/nm.1p.txt"),
  ("nohup", "man1p/nohup.1p.txt"),
  ("od", "man1p/od.1p.txt"),
  ("paste", "man1p/paste.1p.txt"),
  ("patch", "man1p/patch.1p.txt"),
  ("pathchk", "man1p/pathchk.1p.txt"),
  ("pax", "man1p/pax.1p.txt"),
  ("pr", "man1p/pr.1p.txt"),
  ("printf", "man1p/printf.1p.txt"),
  ("prs", "man1p/prs.1p.txt"),
  ("ps", "man1p/ps.1p.txt"),
  ("pwd", "man1p/pwd.1p.txt"),
  ("qalter", "man1p/qalter.1p.txt"),
  ("qdel", "man1p/qdel.1p.txt"),
  ("qhold", "man1p/qhold.1p.txt"),
  ("qmove", "man1p/qmove.1p.txt"),
  ("qmsg", "man1p/qmsg.1p.txt"),
  ("qrerun", "man1p/qrerun.1p.txt"),
  ("qrls", "man1p/qrls.1p.txt"),
  ("qselect", "man1p/qselect.1p.txt"),
  ("qsig", "man1p/qsig.1p.txt"),
  ("qstat", "man1p/qstat.1p.txt"),
  ("qsub", "man1p/qsub.1p.txt"),
  ("read", "man1p/read.1p.txt"),
  ("readonly", "man1p/readonly.1p.txt"),
  ("renice", "man1p/renice.1p.txt"),
  ("return", "man1p/return.1p.txt"),
  ("rm", "man1p/rm.1p.txt"),
  ("rmdel", "man1p/rmdel.1p.txt"),
  ("rmdir", "man1p/rmdir.1p.txt"),
  ("sact", "man1p/sact.1p.txt"),
  ("sccs", "man1p/sccs.1p.txt"),
  ("sed", "man1p/sed.1p.txt"),
  ("set", "man1p/set.1p.txt"),
  ("sh", "man1p/sh.1p.txt"),
  ("shift", "man1p/shift.1p.txt"),
  ("sleep", "man1p/sleep.1p.txt"),
  ("sort", "man1p/sort.1p.txt"),
  ("split", "man1p/split.1p.txt"),
  ("strings", "man1p/strings.1p.txt"),
  ("strip", "man1p/strip.1p.txt"),
  ("stty", "man1p/stty.1p.txt"),
  ("tabs", "man1p/tabs.1p.txt"),
  ("tail", "man1p/tail.1p.txt"),
  ("talk", "man1p/talk.1p.txt"),
  ("tee", "man1p/tee.1p.txt"),
  ("test", "man1p/test.1p.txt"),
  ("time", "man1p/time.1p.txt"),
  ("times", "man1p/times.1p.txt"),
  ("touch", "man1p/touch.1p.txt"),
  ("tput", "man1p/tput.1p.txt"),
  ("tr", "man1p/tr.1p.txt"),
  ("trap", "man1p/trap.1p.txt"),
  ("true", "man1p/true.1p.txt"),
  ("tsort", "man1p/tsort.1p.txt"),
  ("tty", "man1p/tty.1p.txt"),
  ("type", "man1p/type.1p.txt"),
  ("ulimit", "man1p/ulimit.1p.txt"),
  ("umask", "man1p/umask.1p.txt"),
  ("unalias", "man1p/unalias.1p.txt"),
  ("uname", "man1p/uname.1p.txt"),
  ("uncompress", "man1p/uncompress.1p.txt"),
  ("unexpand", "man1p/unexpand.1p.txt"),
  ("unget", "man1p/unget.1p.txt"),
  ("uniq", "man1p/uniq.1p.txt"),
  ("unlink", "man1p/unlink.1p.txt"),
  ("unset", "man1p/unset.1p.txt"),
  ("uucp", "man1p/uucp.1p.txt"),
  ("uudecode", "man1p/uudecode.1p.txt"),
  ("uuencode", "man1p/uuencode.1p.txt"),
  ("uustat", "man1p/uustat.1p.txt"),
  ("uux", "man1p/uux.1p.txt"),
  ("val", "man1p/val.1p.txt"),
  ("vi", "man1p/vi.1p.txt"),
  ("wait", "man1p/wait.1p.txt"),
  ("wc", "man1p/wc.1p.txt"),
  ("what", "man1p/what.1p.txt"),
  ("who", "man1p/who.1p.txt"),
  ("write", "man1p/write.1p.txt"),
  ("xargs", "man1p/xargs.1p.txt"),
  ("yacc", "man1p/yacc.1p.txt"),
  ("zcat", "man1p/zcat.1p.txt")
]

/-- makeRef of graph.go: the local / self reference for an identifier. -/
def makeRef (filename : String) (ident : String) (offset : Nat) (isDef : Bool) : Ref :=
  { DefRepo := ""
    DefUnitType := "BashDirectory"
    DefUnit := "bash"
    DefPath := filename ++ "/" ++ ident
    UnitType := "BashDirectory"
    Unit := "bash"
    Def := isDef
    File := filename
    Start := u32 ((offset : Int) - (ident.length : Int))
    End := u32 (offset : Int) }

/-- makeDef of graph.go: the Definition for a function name. -/
def makeDef (filename : String) (ident : String) (offset : Nat) : Def :=
  { UnitType := "BashDirectory"
    Unit := "bash"
    Path := filename ++ "/" ++ ident
    Exported := true
    Data := { Name := ident, Keyword := "function", Type' := "", Kind := "function", Separator := "" }
    Name := ident
    Kind := "function"
    File := filename
    DefStart := u32 ((offset : Int) - (ident.length : Int))
    DefEnd := u32 (offset : Int) }

/-- makeCommandRef of graph.go: the reference into the external man-page corpus
for an identifier found in the Command Table. -/
def makeCommandRef (filename : String) (command : String) (page : String) (offset : Nat) : Ref :=
  { DefRepo := "github.com/sourcegraph/man-pages-posix"
    DefUnitType := "ManPages"
    DefUnit := "man"
    DefPath := page ++ "/" ++ command
    UnitType := "BashDirectory"
    Unit := "bash"
    Def := false
    File := filename
    Start := u32 ((offset : Int) - (command.length : Int))
    End := u32 (offset : Int) }

/-- A reference points at the external command-documentation corpus exactly
when makeCommandRef built it; makeRef leaves DefRepo at Go's zero value "". -/
def isCommandRef (r : Ref) : Bool := r.DefRepo == "github.com/sourcegraph/man-pages-posix"

/-- The scan loop of graphFile in graph.go, from the current loop state:
for each Ident token, look the text up in manPages; on a hit append a command
ref; otherwise append a Def when the previous token was the identifier
`function`, then append a local ref; update prevTok/prevIdent only on Ident
tokens.  EOF (the end of the list) stops the loop. -/
def graphTokens (name : String) : ScanState → List Tok → Output → Output
  | _, [], out => out
  | st, Tok.other :: rest, out => graphTokens name st rest out
  | st, Tok.ident ident offset :: rest, out =>
    match manPages.lookup ident with
    | some page =>
        graphTokens name ⟨true, ident⟩ rest
          { out with Refs := out.Refs ++ [makeCommandRef name ident page offset] }
    | none =>
        let isDef := st.prevTokIsIdent && st.prevIdent == "function"
        let out1 := if isDef then { out with Defs := out.Defs ++ [makeDef name ident offset] } else out
        graphTokens name ⟨true, ident⟩ rest
          { out1 with Refs := out1.Refs ++ [makeRef name ident offset isDef] }

/-- The filesystem seen by graphFile: file name to token stream; a name absent
from the list models a file that os.Open fails to open. -/
abbrev FS := List (String × List Tok)

/-- graphFile of graph.go: open the file (an error when it is absent), then run
the scan loop from the initial state (prevTok = scanner.Nothing, prevIdent
= "") over the given accumulator. -/
def graphFile (fs : FS) (name : String) (output : Output) : Except String Output :=
  match fs.lookup name with
  | none => Except.error ("Failed to open file " ++ name)
  | some toks => Except.ok (graphTokens name ⟨false, ""⟩ toks output)

/-- The call `graphFile(f, &output)` inside graphUnits of graph.go: the
returned error is discarded, so a failed file leaves the accumulator as it
was and the loop moves on. -/
def graphFileIgnoringError (fs : FS) (output : Output) (name : String) : Output :=
  match graphFile fs name output with
  | Except.ok o => o
  | Except.error _ => output

/-- The inner loop of graphUnits of graph.go over one unit's Files. -/
def graphUnit (fs : FS) (output : Output) (u : SourceUnit) : Output :=
  u.Files.foldl (graphFileIgnoringError fs) output

/-- The accumulated output of graphUnits of graph.go: both loops, starting
from the empty graph.Output literal. -/
def graphUnitsOut (fs : FS) (units : List SourceUnit) : Output :=
  units.foldl (graphUnit fs) ⟨[], []⟩

/-- graphUnits of graph.go: it always returns a nil error (the errors from
graphFile are discarded inside the loops). -/
def graphUnits (fs : FS) (units : List SourceUnit) : Except String Output :=
  Except.ok (graphUnitsOut fs units)

/-- The Defs that the scan loop of graphFile appends for a token list from a
given loop state (graphTokens without the accumulator). -/
def fileDefs (name : String) : ScanState → List Tok → List Def
  | _, [] => []
  | st, Tok.other :: rest => fileDefs name st rest
  | st, Tok.ident ident offset :: rest =>
    match manPages.lookup ident with
    | some _ => fileDefs name ⟨true, ident⟩ rest
    | none =>
      (if st.prevTokIsIdent && st.prevIdent == "function" then [makeDef name ident offset] else [])
        ++ fileDefs name ⟨true, ident⟩ rest

/-- The Refs that the scan loop of graphFile appends for a token list from a
given loop state (graphTokens without the accumulator). -/
def fileRefs (name : String) : ScanState → List Tok → List Ref
  | _, [] => []
  | st, Tok.other :: rest => fileRefs name st rest
  | st, Tok.ident ident offset :: rest =>
    match manPages.lookup ident with
    | some page => makeCommandRef name ident page offset :: fileRefs name ⟨true, ident⟩ rest
    | none =>
      makeRef name ident offset (st.prevTokIsIdent && st.prevIdent == "function")
        :: fileRefs name ⟨true, ident⟩ rest

/-- The end offsets of the identifier tokens of a stream, in order. -/
def identOffsets : List Tok → List Nat
  | [] => []
  | Tok.other :: rest => identOffsets rest
  | Tok.ident _ o :: rest => o :: identOffsets rest

/-- Defs contributed by one file of a unit: none when the file fails to open. -/
def chunkDefs (fs : FS) (name : String) : List Def :=
  match fs.lookup name with
  | none => []
  | some toks => fileDefs name ⟨false, ""⟩ toks

/-- Refs contributed by one file of a unit: none when the file fails to open. -/
def chunkRefs (fs : FS) (name : String) : List Ref :=
  match fs.lookup name with
  | none => []
  | some toks => fileRefs name ⟨false, ""⟩ toks

/-- All file names of a list of source units, in processing order. -/
def unitsFiles : List SourceUnit → List String
  | [] => []
  | u :: rest => u.Files ++ unitsFiles rest

/-- Defs contributed by a list of files, in processing order. -/
def filesDefs (fs : FS) : List String → List Def
  | [] => []
  | f :: rest => chunkDefs fs f ++ filesDefs fs rest

/-- Refs contributed by a list of files, in processing order. -/
def filesRefs (fs : FS) : List String → List Ref
  | [] => []
  | f :: rest => chunkRefs fs f ++ filesRefs fs rest

/-- The location triple of a Definition: (file, startOffset, endOffset). -/
def defTriple (d : Def) : String × Nat × Nat := (d.File, d.DefStart, d.DefEnd)

/-- The location triple of a Reference: (file, startOffset, endOffset). -/
def refTriple (r : Ref) : String × Nat × Nat := (r.File, r.Start, r.End)

theorem graphTokens_eq (name : String) : ∀ (toks : List Tok) (st : ScanState) (out : Output),
    graphTokens name st toks out =
      ⟨out.Defs ++ fileDefs name st toks, out.Refs ++ fileRefs name st toks⟩
  | [], st, out => by simp [graphTokens, fileDefs, fileRefs]
  | Tok.other :: rest, st, out => by
      simpa [graphTokens, fileDefs, fileRefs] using graphTokens_eq name rest st out
  | Tok.ident t o :: rest, st, out => by
      cases h : manPages.lookup t with
      | some page =>
          simp [graphTokens, fileDefs, fileRefs, h, graphTokens_eq name rest ⟨true, t⟩]
      | none =>
          cases hb : (st.prevTokIsIdent && st.prevIdent == "function") <;>
            simp [graphTokens, fileDefs, fileRefs, h, hb, graphTokens_eq name rest ⟨true, t⟩]

theorem graphFileIgnoringError_eq (fs : FS) (out : Output) (name : String) :
    graphFileIgnoringError fs out name =
      ⟨out.Defs ++ chunkDefs fs name, out.Refs ++ chunkRefs fs name⟩ := by
  cases h : fs.lookup name <;>
    simp [graphFileIgnoringError, graphFile, chunkDefs, chunkRefs, h, graphTokens_eq]

theorem foldl_files_eq (fs : FS) : ∀ (files : List String) (out : Output),
    files.foldl (graphFileIgnoringError fs) out =
      ⟨out.Defs ++ filesDefs fs files, out.Refs ++ filesRefs fs files⟩
  | [], out => by simp [filesDefs, filesRefs]
  | f :: rest, out => by
      simp [List.foldl_cons, graphFileIgnoringError_eq, foldl_files_eq fs rest, filesDefs, filesRefs]

theorem graphUnit_eq (fs : FS) (out : Output) (u : SourceUnit) :
    graphUnit fs out u = ⟨out.Defs ++ filesDefs fs u.Files, out.Refs ++ filesRefs fs u.Files⟩ :=
  foldl_files_eq fs u.Files out

theorem filesDefs_append (fs : FS) : ∀ (a b : List String),
    filesDefs fs (a ++ b) = filesDefs fs a ++ filesDefs fs b
  | [], _ => by simp [filesDefs]
  | f :: rest, b => by simp [filesDefs, filesDefs_append fs rest]

theorem filesRefs_append (fs : FS) : ∀ (a b : List String),
    filesRefs fs (a ++ b) = filesRefs fs a ++ filesRefs fs b
  | [], _ => by simp [filesRefs]
  | f :: rest, b => by simp [filesRefs, filesRefs_append fs rest]

theorem foldl_units_eq (fs : FS) : ∀ (units : List SourceUnit) (out : Output),
    units.foldl (graphUnit fs) out =
      ⟨out.Defs ++ filesDefs fs (unitsFiles units), out.Refs ++ filesRefs fs (unitsFiles units)⟩
  | [], out => by simp [unitsFiles, filesDefs, filesRefs]
  | u :: rest, out => by
      simp [List.foldl_cons, graphUnit_eq, foldl_units_eq fs rest, unitsFiles,
        filesDefs_append, filesRefs_append]

theorem graphUnitsOut_eq (fs : FS) (units : List SourceUnit) :
    graphUnitsOut fs units = ⟨filesDefs fs (unitsFiles units), filesRefs fs (unitsFiles units)⟩ := by
  simpa [graphUnitsOut] using foldl_units_eq fs units ⟨[], []⟩

theorem fileDefs_triples_eq (name : String) : ∀ (toks : List Tok) (st : ScanState),
    (fileDefs name st toks).map defTriple =
      ((fileRefs name st toks).filter Ref.Def).map refTriple
  | [], st => by simp [fileDefs, fileRefs]
  | Tok.other :: rest, st => by
      simpa [fileDefs, fileRefs] using fileDefs_triples_eq name rest st
  | Tok.ident t o :: rest, st => by
      cases h : manPages.lookup t with
      | some page =>
          simp [fileDefs, fileRefs, h, makeCommandRef, fileDefs_triples_eq name rest ⟨true, t⟩]
      | none =>
          cases hb : (st.prevTokIsIdent && st.prevIdent == "function") <;>
            simp [fileDefs, fileRefs, h, hb, makeDef, makeRef, defTriple, refTriple,
              fileDefs_triples_eq name rest ⟨true, t⟩]

theorem chunkDefs_triples_eq (fs : FS) (f : String) :
    (chunkDefs fs f).map defTriple = ((chunkRefs fs f).filter Ref.Def).map refTriple := by
  cases h : fs.lookup f <;> simp [chunkDefs, chunkRefs, h, fileDefs_triples_eq]

theorem filesDefs_triples_eq (fs : FS) : ∀ (files : List String),
    (filesDefs fs files).map defTriple = ((filesRefs fs files).filter Ref.Def).map refTriple
  | [] => by simp [filesDefs, filesRefs]
  | f :: rest => by
      simp [filesDefs, filesRefs, List.filter_append, chunkDefs_triples_eq,
        filesDefs_triples_eq fs rest]

theorem fileDefs_file (name : String) : ∀ (toks : List Tok) (st : ScanState),
    ∀ d ∈ fileDefs name st toks, d.File = name
  | [], _ => by simp [fileDefs]
  | Tok.other :: rest, st => by
      simpa [fileDefs] using fileDefs_file name rest st
  | Tok.ident t o :: rest, st => by
      cases h : manPages.lookup t with
      | some page => simpa [fileDefs, h] using fileDefs_file name rest ⟨true, t⟩
      | none =>
          cases hb : (st.prevTokIsIdent && st.prevIdent == "function") <;>
            simp [fileDefs, h, hb, makeDef] <;>
            exact fileDefs_file name rest ⟨true, t⟩

theorem fileRefs_file (name : String) : ∀ (toks : List Tok) (st : ScanState),
    ∀ r ∈ fileRefs name st toks, r.File = name
  | [], _ => by simp [fileRefs]
  | Tok.other :: rest, st => by
      simpa [fileRefs] using fileRefs_file name rest st
  | Tok.ident t o :: rest, st => by
      cases h : manPages.lookup t with
      | some page =>
          simp [fileRefs, h, makeCommandRef]
          exact fun r hr => fileRefs_file name rest ⟨true, t⟩ r hr
      | none =>
          simp [fileRefs, h, makeRef]
          exact fun r hr => fileRefs_file name rest ⟨true, t⟩ r hr

theorem chunkDefs_file (fs : FS) (f : String) : ∀ d ∈ chunkDefs fs f, d.File = f := by
  cases h : fs.lookup f <;> simp [chunkDefs, h]
  exact fileDefs_file f _ _

theorem chunkRefs_file (fs : FS) (f : String) : ∀ r ∈ chunkRefs fs f, r.File = f := by
  cases h : fs.lookup f <;> simp [chunkRefs, h]
  exact fileRefs_file f _ _

theorem filesDefs_file (fs : FS) : ∀ (files : List String),
    ∀ d ∈ filesDefs fs files, d.File ∈ files
  | [] => by simp [filesDefs]
  | f :: rest => by
      simp only [filesDefs, List.mem_append, List.mem_cons]
      intro d hd
      cases hd with
      | inl h => exact Or.inl (chunkDefs_file fs f d h)
      | inr h => exact Or.inr (filesDefs_file fs rest d h)

theorem filesRefs_file (fs : FS) : ∀ (files : List String),
    ∀ r ∈ filesRefs fs files, r.File ∈ files
  | [] => by simp [filesRefs]
  | f :: rest => by
      simp only [filesRefs, List.mem_append, List.mem_cons]
      intro r hr
      cases hr with
      | inl h => exact Or.inl (chunkRefs_file fs f r h)
      | inr h => exact Or.inr (filesRefs_file fs rest r h)

theorem u32_natCast (o : Nat) : u32 (o : Int) = o % 2 ^ 32 := by
  simp only [u32]
  omega

theorem fileDefs_ends_sublist (name : String) : ∀ (toks : List Tok) (st : ScanState),
    List.Sublist ((fileDefs name st toks).map Def.DefEnd)
      ((identOffsets toks).map (fun o => o % 2 ^ 32))
  | [], _ => by simp [fileDefs, identOffsets]
  | Tok.other :: rest, st => by
      simpa [fileDefs, identOffsets] using fileDefs_ends_sublist name rest st
  | Tok.ident t o :: rest, st => by
      cases h : manPages.lookup t with
      | some page =>
          simp only [fileDefs, identOffsets, h, List.map_cons]
          exact List.Sublist.cons _ (fileDefs_ends_sublist name rest ⟨true, t⟩)
      | none =>
          cases hb : (st.prevTokIsIdent && st.prevIdent == "function") with
          | false =>
              simp only [fileDefs, identOffsets, h, hb, List.map_cons, if_neg Bool.false_ne_true,
                List.nil_append]
              exact List.Sublist.cons _ (fileDefs_ends_sublist name rest ⟨true, t⟩)
          | true =>
              simp only [fileDefs, identOffsets, h, hb, if_pos rfl, List.map_cons,
                List.singleton_append, makeDef, u32_natCast]
              exact List.Sublist.cons₂ _ (fileDefs_ends_sublist name rest ⟨true, t⟩)

theorem lookup_mem {α β : Type _} [BEq α] [LawfulBEq α] :
    ∀ (l : List (α × β)) (a : α) (b : β), l.lookup a = some b → (a, b) ∈ l
  | [], a, b => by simp [List.lookup]
  | (k, v) :: rest, a, b => by
      cases h : (a == k) with
      | true =>
          have hk : a = k := eq_of_beq h
          simp [List.lookup, h, hk]
          intro hv
          simp [hv]
      | false =>
          simp only [List.lookup, h]
          exact fun hl => List.mem_cons_of_mem _ (lookup_mem rest a b hl)

theorem lookup_eq_none_of_forall {β : Type _} :
    ∀ (l : List (String × β)) (t : String), (∀ p ∈ l, p.1 ≠ t) → l.lookup t = none
  | [], t, _ => rfl
  | (k, v) :: rest, t, h => by
      have hk : (t == k) = false := by
        have : k ≠ t := h (k, v) (List.mem_cons_self _ _)
        simp [beq_eq_false_iff_ne]
        exact fun e => this e.symm
      simp only [List.lookup, hk]
      exact lookup_eq_none_of_forall rest t (fun p hp => h p (List.mem_cons_of_mem _ hp))

theorem length_filter_eq_one_of_nodup {α : Type _} [DecidableEq α] :
    ∀ (l : List α) (a : α), l.Nodup → a ∈ l →
      (l.filter (fun x => decide (x = a))).length = 1
  | [], a, _, ha => absurd ha (List.not_mem_nil a)
  | x :: xs, a, hnd, ha => by
      rw [List.nodup_cons] at hnd
      by_cases hax : x = a
      · subst hax
        rw [List.filter_cons_of_pos (by simp)]
        have hnil : xs.filter (fun y => decide (y = x)) = [] := by
          rw [List.filter_eq_nil_iff]
          intro y hy
          simp only [decide_eq_true_eq]
          exact fun he => hnd.1 (he ▸ hy)
        simp [hnil]
      · have ha' : a ∈ xs := by
          cases List.mem_cons.mp ha with
          | inl he => exact absurd he.symm hax
          | inr hm => exact hm
        rw [List.filter_cons_of_neg (by simpa using hax)]
        exact length_filter_eq_one_of_nodup xs a hnd.2 ha'

theorem fileDefs_triples_nodup (name : String) (toks : List Tok) (st : ScanState)
    (h1 : (identOffsets toks).Nodup) (h2 : ∀ o ∈ identOffsets toks, o < 2 ^ 32) :
    ((fileDefs name st toks).map defTriple).Nodup := by
  have hoff : ((identOffsets toks).map (fun o => o % 2 ^ 32)).Nodup := by
    apply List.Nodup.map_on _ h1
    intro x hx y hy hxy
    rwa [Nat.mod_eq_of_lt (h2 x hx), Nat.mod_eq_of_lt (h2 y hy)] at hxy
  have hends : ((fileDefs name st toks).map Def.DefEnd).Nodup :=
    List.Nodup.sublist (fileDefs_ends_sublist name toks st) hoff
  have hmap : ((fileDefs name st toks).map defTriple).map (fun p => p.2.2) =
      (fileDefs name st toks).map Def.DefEnd := by
    rw [List.map_map]
    rfl
  exact List.Nodup.of_map _ (hmap ▸ hends)

theorem filesDefs_triples_nodup (fs : FS) : ∀ (files : List String),
    files.Nodup →
    (∀ p ∈ fs, (identOffsets p.2).Nodup ∧ ∀ o ∈ identOffsets p.2, o < 2 ^ 32) →
    ((filesDefs fs files).map defTriple).Nodup
  | [], _, _ => by simp [filesDefs]
  | f :: rest, H1, H2 => by
      rw [List.nodup_cons] at H1
      simp only [filesDefs, List.map_append]
      rw [List.nodup_append]
      refine ⟨?_, filesDefs_triples_nodup fs rest H1.2 H2, ?_⟩
      · cases h : fs.lookup f with
        | none => simp [chunkDefs, h]
        | some toks =>
            have hp := H2 (f, toks) (lookup_mem fs f toks h)
            simp only [chunkDefs, h]
            exact fileDefs_triples_nodup f toks ⟨false, ""⟩ hp.1 hp.2
      · intro x hx hx'
        have hxf : x.1 = f := by
          rcases List.mem_map.mp hx with ⟨d, hd, hdx⟩
          rw [← hdx]
          exact chunkDefs_file fs f d hd
        have hxr : x.1 ∈ rest := by
          rcases List.mem_map.mp hx' with ⟨d, hd, hdx⟩
          rw [← hdx]
          exact filesDefs_file fs rest d hd
        exact H1.1 (hxf ▸ hxr)

/-- C4 (amended): for every input to the graph operation in which no file name
appears more than once across the units' file lists, and in which each file's
identifier tokens carry pairwise distinct end offsets below 2^32 (the tokenizer
contract: offsets are strictly increasing byte positions stored in uint32
range), every emitted Definition has exactly one corresponding Reference with
isDefinitionSite = true and identical (file, startOffset, endOffset), over the
whole accumulated output of all files of all units. -/
theorem C4_defsite_ref_unique (fs : FS) (units : List SourceUnit)
    (H1 : (unitsFiles units).Nodup)
    (H2 : ∀ p ∈ fs, (identOffsets p.2).Nodup ∧ ∀ o ∈ identOffsets p.2, o < 2 ^ 32) :
    ∀ d ∈ (graphUnitsOut fs units).Defs,
      ((graphUnitsOut fs units).Refs.filter
        (fun r => r.Def && decide (refTriple r = defTriple d))).length = 1 := by
  intro d hd
  have hd' : d ∈ filesDefs fs (unitsFiles units) := by
    rw [graphUnitsOut_eq] at hd
    exact hd
  rw [graphUnitsOut_eq]
  show ((filesRefs fs (unitsFiles units)).filter
      (fun r => r.Def && decide (refTriple r = defTriple d))).length = 1
  have e1 : (filesRefs fs (unitsFiles units)).filter
        (fun r => r.Def && decide (refTriple r = defTriple d))
      = ((filesRefs fs (unitsFiles units)).filter Ref.Def).filter
          (fun r => decide (refTriple r = defTriple d)) := by
    rw [List.filter_filter]
    apply List.filter_congr
    intro r _
    rw [Bool.and_comm]
  rw [e1]
  have e2 : (((filesRefs fs (unitsFiles units)).filter Ref.Def).filter
        (fun r => decide (refTriple r = defTriple d))).length
      = ((((filesRefs fs (unitsFiles units)).filter Ref.Def).map refTriple).filter
          (fun x => decide (x = defTriple d))).length := by
    rw [List.filter_map, List.length_map]
    rfl
  rw [e2, ← filesDefs_triples_eq]
  exact length_filter_eq_one_of_nodup _ _ (filesDefs_triples_nodup fs _ H1 H2)
    (List.mem_map_of_mem defTriple hd')

/-- A filesystem with one script defining one function, and a unit that lists
that same file twice: the graph operation then processes the file twice. -/
def fsC4 : FS := [("a.sh", [Tok.ident "function" 8, Tok.ident "myfn" 13])]

def unitsC4 : List SourceUnit :=
  [{ Name := "d", Type' := "BashDirectory", Dir := "d", Files := ["a.sh", "a.sh"] }]

/-- C4 counterexample: as stated over every input, the claim is false.  When a
unit's file list names the same file twice, the Definition and its
definition-site Reference are both emitted twice, so each of the two identical
Definitions has two References with isDefinitionSite = true and identical
(file, startOffset, endOffset), not exactly one. -/
theorem C4_counterexample :
    ¬ (∀ d ∈ (graphUnitsOut fsC4 unitsC4).Defs,
        ((graphUnitsOut fsC4 unitsC4).Refs.filter
          (fun r => r.Def && decide (refTriple r = defTriple d))).length = 1) := by
  decide

def fsW4 : FS := [("w.sh", [Tok.ident "function" 8, Tok.ident "mywfn" 14])]

def unitsW4 : List SourceUnit :=
  [{ Name := "d", Type' := "BashDirectory", Dir := "d", Files := ["w.sh"] }]

/-- C4 witness: the amended theorem applied to a concrete one-file unit whose
script defines one function. -/
theorem C4_witness :
    (unitsFiles unitsW4).Nodup ∧
    (∀ p ∈ fsW4, (identOffsets p.2).Nodup ∧ ∀ o ∈ identOffsets p.2, o < 2 ^ 32) ∧
    (∀ d ∈ (graphUnitsOut fsW4 unitsW4).Defs,
      ((graphUnitsOut fsW4 unitsW4).Refs.filter
        (fun r => r.Def && decide (refTriple r = defTriple d))).length = 1) :=
  ⟨by decide, by decide, C4_defsite_ref_unique fsW4 unitsW4 (by decide) (by decide)⟩

theorem lookup_function_eq_none : manPages.lookup "function" = none := by decide

/-- C1 (amended): the command-table check takes priority over the definition
check.  An identifier token whose text is a key of the Command Table is always
classified as an external-command Reference, even when it is immediately
preceded by the identifier token `function`: whatever the previous-token state,
the token contributes no Definition and exactly one command Reference. -/
theorem C1_commandTable_priority (name t page : String) (o : Nat) (st : ScanState)
    (rest : List Tok) (h : manPages.lookup t = some page) :
    fileDefs name st (Tok.ident t o :: rest) = fileDefs name ⟨true, t⟩ rest ∧
    fileRefs name st (Tok.ident t o :: rest)
      = makeCommandRef name t page o :: fileRefs name ⟨true, t⟩ rest ∧
    isCommandRef (makeCommandRef name t page o) = true := by
  refine ⟨?_, ?_, ?_⟩
  · simp [fileDefs, h]
  · simp [fileRefs, h]
  · simp [isCommandRef, makeCommandRef]

def fsC1 : FS := [("a.sh", [Tok.ident "function" 8, Tok.ident "ls" 11])]

def unitsC1 : List SourceUnit :=
  [{ Name := "d", Type' := "BashDirectory", Dir := "d", Files := ["a.sh"] }]

/-- C1 counterexample: graphing `function ls` yields NO Definition at all, and
the token `ls` (a Command Table key immediately preceded by the identifier
`function`) gets an external-command Reference: in the source, graphFile tests
manPages membership before the definition check, so the command-table check
takes priority, contrary to the claim. -/
theorem C1_counterexample :
    (graphUnitsOut fsC1 unitsC1).Defs = [] ∧
    (graphUnitsOut fsC1 unitsC1).Refs.map isCommandRef = [false, true] := by
  decide

/-- C1 witness: the amended theorem applied to `ls` right after `function`. -/
theorem C1_witness :
    manPages.lookup "ls" = some "man1p/ls.1p.txt" ∧
    (fileDefs "a.sh" ⟨true, "function"⟩ [Tok.ident "ls" 11]
        = fileDefs "a.sh" ⟨true, "ls"⟩ [] ∧
     fileRefs "a.sh" ⟨true, "function"⟩ [Tok.ident "ls" 11]
        = makeCommandRef "a.sh" "ls" "man1p/ls.1p.txt" 11 :: fileRefs "a.sh" ⟨true, "ls"⟩ [] ∧
     isCommandRef (makeCommandRef "a.sh" "ls" "man1p/ls.1p.txt" 11) = true) :=
  ⟨by decide,
   C1_commandTable_priority "a.sh" "ls" "man1p/ls.1p.txt" 11 ⟨true, "function"⟩ [] (by decide)⟩

/-- C3 (amended): a token textually equal to `function` IS itself classified as
a definition whenever the previous token is also the identifier `function` (the
source has no self-exclusion for the keyword): for the token sequence
`function function foo`, TWO Definitions are emitted, one for the second
`function` and one for `foo`. -/
theorem C3_function_function_two_defs (name : String) (o1 o2 o3 : Nat) :
    fileDefs name ⟨false, ""⟩
        [Tok.ident "function" o1, Tok.ident "function" o2, Tok.ident "foo" o3]
      = [makeDef name "function" o2, makeDef name "foo" o3] := by
  have h2 : manPages.lookup "foo" = none := by decide
  simp [fileDefs, lookup_function_eq_none, h2]

def fsC3 : FS :=
  [("a.sh", [Tok.ident "function" 9, Tok.ident "function" 18, Tok.ident "foo" 22])]

def unitsC3 : List SourceUnit :=
  [{ Name := "d", Type' := "BashDirectory", Dir := "d", Files := ["a.sh"] }]

/-- C3 counterexample: for the input token sequence `function function foo`,
the emitted Definitions are named `function` and `foo` — the second `function`
is itself classified as a definition and the number of Definitions is 2, not
exactly one for `foo`. -/
theorem C3_counterexample :
    (graphUnitsOut fsC3 unitsC3).Defs.map Def.Name = ["function", "foo"] ∧
    ¬ (graphUnitsOut fsC3 unitsC3).Defs.length = 1 := by
  decide

/-- C5: for every Definition and Reference built from an identifier token
(text, endOffset), under the tokenizer precondition that endOffset is the byte
offset just after the token (so length(text) ≤ endOffset) and that the offset
is representable in the uint32 the source stores it in (endOffset < 2^32), the
stored offsets satisfy startOffset = endOffset - length(text), hence
endOffset - startOffset = length(text); startOffset ≥ 0 holds because the
stored offsets are natural numbers. -/
theorem C5_offset_arithmetic (filename text page : String) (offset : Nat) (isDef : Bool)
    (h1 : text.length ≤ offset) (h2 : offset < 2 ^ 32) :
    ((makeRef filename text offset isDef).Start = offset - text.length ∧
     (makeRef filename text offset isDef).End = offset ∧
     (makeRef filename text offset isDef).End - (makeRef filename text offset isDef).Start
       = text.length) ∧
    ((makeDef filename text offset).DefStart = offset - text.length ∧
     (makeDef filename text offset).DefEnd = offset ∧
     (makeDef filename text offset).DefEnd - (makeDef filename text offset).DefStart
       = text.length) ∧
    ((makeCommandRef filename text page offset).Start = offset - text.length ∧
     (makeCommandRef filename text page offset).End = offset ∧
     (makeCommandRef filename text page offset).End
       - (makeCommandRef filename text page offset).Start = text.length) := by
  simp only [makeRef, makeDef, makeCommandRef, u32]
  norm_num
  omega

/-- C5 witness: the offset arithmetic at a concrete token. -/
theorem C5_witness :
    ("myfn".length ≤ 9 ∧ 9 < 2 ^ 32) ∧
    (((makeRef "a.sh" "myfn" 9 false).Start = 9 - "myfn".length ∧
      (makeRef "a.sh" "myfn" 9 false).End = 9 ∧
      (makeRef "a.sh" "myfn" 9 false).End - (makeRef "a.sh" "myfn" 9 false).Start
        = "myfn".length) ∧
     ((makeDef "a.sh" "myfn" 9).DefStart = 9 - "myfn".length ∧
      (makeDef "a.sh" "myfn" 9).DefEnd = 9 ∧
      (makeDef "a.sh" "myfn" 9).DefEnd - (makeDef "a.sh" "myfn" 9).DefStart
        = "myfn".length) ∧
     ((makeCommandRef "a.sh" "myfn" "p" 9).Start = 9 - "myfn".length ∧
      (makeCommandRef "a.sh" "myfn" "p" 9).End = 9 ∧
      (makeCommandRef "a.sh" "myfn" "p" 9).End - (makeCommandRef "a.sh" "myfn" "p" 9).Start
        = "myfn".length)) :=
  ⟨⟨by decide, by decide⟩, C5_offset_arithmetic "a.sh" "myfn" "p" 9 false (by decide) (by decide)⟩

/-- C6: Command Table lookup is an exact, case-sensitive string match.  For an
identifier token whose text differs from every key of the table, the graph
operation emits the local / self reference built by makeRef — which does not
point at the external command corpus — and never an external-command
Reference. -/
theorem C6_not_in_table_local_ref (name t : String) (o : Nat) (st : ScanState)
    (rest : List Tok) (h : ∀ p ∈ manPages, p.1 ≠ t) :
    fileRefs name st (Tok.ident t o :: rest)
      = makeRef name t o (st.prevTokIsIdent && st.prevIdent == "function")
          :: fileRefs name ⟨true, t⟩ rest ∧
    isCommandRef (makeRef name t o (st.prevTokIsIdent && st.prevIdent == "function")) = false := by
  have hl : manPages.lookup t = none := lookup_eq_none_of_forall manPages t h
  constructor
  · simp [fileRefs, hl]
  · simp [isCommandRef, makeRef]

/-- C6 witness: an identifier matching no table key (`myhelper`) falls through
to the local reference classification. -/
theorem C6_witness :
    (∀ p ∈ manPages, p.1 ≠ "myhelper") ∧
    (fileRefs "a.sh" ⟨false, ""⟩ [Tok.ident "myhelper" 8]
        = makeRef "a.sh" "myhelper" 8
            ((⟨false, ""⟩ : ScanState).prevTokIsIdent
              && (⟨false, ""⟩ : ScanState).prevIdent == "function")
          :: fileRefs "a.sh" ⟨true, "myhelper"⟩ [] ∧
     isCommandRef (makeRef "a.sh" "myhelper" 8
        ((⟨false, ""⟩ : ScanState).prevTokIsIdent
          && (⟨false, ""⟩ : ScanState).prevIdent == "function")) = false) :=
  ⟨by decide, C6_not_in_table_local_ref "a.sh" "myhelper" 8 ⟨false, ""⟩ [] (by decide)⟩

theorem fileDefs_replicate_other (name : String) : ∀ (n : Nat) (st : ScanState) (l : List Tok),
    fileDefs name st (List.replicate n Tok.other ++ l) = fileDefs name st l
  | 0, _, _ => rfl
  | n + 1, st, l => by
      simpa [List.replicate_succ, fileDefs] using fileDefs_replicate_other name n st l

theorem fileRefs_replicate_other (name : String) : ∀ (n : Nat) (st : ScanState) (l : List Tok),
    fileRefs name st (List.replicate n Tok.other ++ l) = fileRefs name st l
  | 0, _, _ => rfl
  | n + 1, st, l => by
      simpa [List.replicate_succ, fileRefs] using fileRefs_replicate_other name n st l

/-- C10: non-identifier tokens do not update the previous-token state of the
scan loop.  When the identifier `function` is followed by any number of
non-identifier tokens and then an identifier t that is not a Command Table
key, t is classified as a Definition (with its definition-site Reference)
exactly as if it immediately followed `function`. -/
theorem C10_other_tokens_keep_state (name t : String) (o0 o : Nat) (n : Nat) (rest : List Tok)
    (h : manPages.lookup t = none) :
    fileDefs name ⟨false, ""⟩
        (Tok.ident "function" o0 :: (List.replicate n Tok.other ++ Tok.ident t o :: rest))
      = makeDef name t o :: fileDefs name ⟨true, t⟩ rest ∧
    fileRefs name ⟨false, ""⟩
        (Tok.ident "function" o0 :: (List.replicate n Tok.other ++ Tok.ident t o :: rest))
      = makeRef name "function" o0 false
          :: makeRef name t o true :: fileRefs name ⟨true, t⟩ rest := by
  constructor
  · simp [fileDefs, lookup_function_eq_none, fileDefs_replicate_other, h]
  · simp [fileRefs, lookup_function_eq_none, fileRefs_replicate_other, h]

/-- C10 witness: `function`, two operator tokens, then `deploy`. -/
theorem C10_witness :
    manPages.lookup "deploy" = none ∧
    (fileDefs "a.sh" ⟨false, ""⟩
        (Tok.ident "function" 8 :: (List.replicate 2 Tok.other ++ [Tok.ident "deploy" 17]))
      = makeDef "a.sh" "deploy" 17 :: fileDefs "a.sh" ⟨true, "deploy"⟩ [] ∧
     fileRefs "a.sh" ⟨false, ""⟩
        (Tok.ident "function" 8 :: (List.replicate 2 Tok.other ++ [Tok.ident "deploy" 17]))
      = makeRef "a.sh" "function" 8 false
          :: makeRef "a.sh" "deploy" 17 true :: fileRefs "a.sh" ⟨true, "deploy"⟩ []) :=
  ⟨by decide, C10_other_tokens_keep_state "a.sh" "deploy" 8 17 2 [] (by decide)⟩

def fsC2 : FS := [("good.sh", [Tok.ident "echo" 5])]

def unitsC2 : List SourceUnit :=
  [{ Name := "d", Type' := "BashDirectory", Dir := "d", Files := ["missing.sh", "good.sh"] }]

/-- C2: evaluation of the code at the failing input.  The unit lists
missing.sh (which cannot be opened) before good.sh, yet graphUnits returns a
nil error together with the refs of good.sh: graphUnits discards the error
graphFile returns for missing.sh and goes on to the remaining file, so the
failure is never reported to the caller — contrary to the claim (and to the
error plumbing of graphFile and GraphCmd.Execute, whose handling of a non-nil
graphUnits error is unreachable). -/
theorem C2_open_failure_not_reported :
    graphUnits fsC2 unitsC2
      = Except.ok ⟨[], [makeCommandRef "good.sh" "echo" "man1p/echo.1p.txt" 5]⟩ := by
  rfl

/-- C7 (amended): the graph operation performs no path rewriting at all: every
file field of every emitted Definition and Reference is one of the file names
given verbatim in the units' file lists (GraphCmd.Execute serializes the
accumulated output directly; relPath is never applied). -/
theorem C7_file_fields_verbatim (fs : FS) (units : List SourceUnit) :
    (∀ d ∈ (graphUnitsOut fs units).Defs, d.File ∈ unitsFiles units) ∧
    (∀ r ∈ (graphUnitsOut fs units).Refs, r.File ∈ unitsFiles units) := by
  rw [graphUnitsOut_eq]
  exact ⟨filesDefs_file fs _, filesRefs_file fs _⟩

def fsC7 : FS := [("/home/user/project/a.sh", [Tok.ident "myfn" 5])]

def unitsC7 : List SourceUnit :=
  [{ Name := "/home/user/project", Type' := "BashDirectory", Dir := "/home/user/project",
     Files := ["/home/user/project/a.sh"] }]

/-- C7 counterexample: graphing a unit whose file list holds the absolute path
/home/user/project/a.sh produces output whose only file field is that same
absolute path, still beginning with '/': it has not been rewritten to a path
relative to the current working directory (which would be the relative name
a.sh, not an absolute path). -/
theorem C7_counterexample :
    (graphUnitsOut fsC7 unitsC7).Refs.map Ref.File = ["/home/user/project/a.sh"] ∧
    "/home/user/project/a.sh".data.head? = some '/' := by
  decide

def rC7 : Ref := makeRef "/home/user/project/a.sh" "myfn" 5 false

/-- C7 witness: the amended theorem applied to the concrete reference emitted
for myfn. -/
theorem C7_witness : rC7.File ∈ unitsFiles unitsC7 :=
  (C7_file_fields_verbatim fsC7 unitsC7).2 rC7 (by decide)

theorem filesDefs_congr (fs fs' : FS) : ∀ (files : List String),
    (∀ f ∈ files, fs.lookup f = fs'.lookup f) → filesDefs fs files = filesDefs fs' files
  | [], _ => rfl
  | f :: rest, h => by
      have hf := h f (List.mem_cons_self _ _)
      simp [filesDefs, chunkDefs, hf,
        filesDefs_congr fs fs' rest (fun g hg => h g (List.mem_cons_of_mem _ hg))]

theorem filesRefs_congr (fs fs' : FS) : ∀ (files : List String),
    (∀ f ∈ files, fs.lookup f = fs'.lookup f) → filesRefs fs files = filesRefs fs' files
  | [], _ => rfl
  | f :: rest, h => by
      have hf := h f (List.mem_cons_self _ _)
      simp [filesRefs, chunkRefs, hf,
        filesRefs_congr fs fs' rest (fun g hg => h g (List.mem_cons_of_mem _ hg))]

/-- C8: the graph operation is deterministic.  Its output — error flag, Defs
and Refs, order included — is a function of the units list and of the contents
of the files the units name: two runs over filesystems that agree on every
listed file produce the same output value (hence byte-identical serializations
from the deterministic JSON encoder). -/
theorem C8_deterministic (fs fs' : FS) (units : List SourceUnit)
    (h : ∀ f ∈ unitsFiles units, fs.lookup f = fs'.lookup f) :
    graphUnits fs units = graphUnits fs' units := by
  simp only [graphUnits, graphUnitsOut_eq]
  rw [filesDefs_congr fs fs' _ h, filesRefs_congr fs fs' _ h]

def fs8 : FS := [("a.sh", [Tok.ident "pwd" 3])]

def fs8b : FS := [("a.sh", [Tok.ident "pwd" 3]), ("b.sh", [Tok.ident "ls" 2])]

def units8 : List SourceUnit :=
  [{ Name := "d", Type' := "BashDirectory", Dir := "d", Files := ["a.sh"] }]

/-- C8 witness: two filesystems agreeing on the one listed file (the second
also holds an unrelated b.sh) yield the same graph output. -/
theorem C8_witness :
    (∀ f ∈ unitsFiles units8, fs8.lookup f = fs8b.lookup f) ∧
    graphUnits fs8 units8 = graphUnits fs8b units8 :=
  ⟨by decide, C8_deterministic fs8 fs8b units8 (by decide)⟩

/-- Helper for filepathExt: walk the reversed character list of a path,
accumulating the characters seen so far after the current position; stop with
the empty extension at a path separator, and return the suffix from the final
dot when one is found — the logic of Go's filepath.Ext, which scans the path
backwards to the last dot after the last separator. -/
def extRev : List Char → List Char → List Char
  | _, [] => []
  | acc, c :: rest => if c = '/' then [] else if c = '.' then c :: acc else extRev (c :: acc) rest

/-- Go's filepath.Ext: the suffix of the path beginning at the final dot in the
final path element; empty when there is no dot. -/
def filepathExt (p : String) : String := String.mk (extRev [] p.data.reverse)

/-- A node of the directory tree scanned by scan.go: a file entry carries
whether the inode is a regular file (symlinks, devices and the like are not),
a directory carries its child entries (a directory itself is never regular). -/
inductive FSNode where
  | file (name : String) (regular : Bool)
  | dir (name : String) (entries : List FSNode)

mutual

/-- The filepath.Walk traversal of scan.go together with its callback: every
visited node whose info is a regular file and whose filepath.Ext is ".sh" is
appended to the files slice; directories only contribute their children.
Paths are built by prefixing the parent directory, as filepath.Walk reports
them. -/
def scanWalk (base : String) : FSNode → List String
  | FSNode.file name regular =>
      if regular && (filepathExt (base ++ "/" ++ name) == ".sh") then [base ++ "/" ++ name]
      else []
  | FSNode.dir name entries => scanWalkList (base ++ "/" ++ name) entries

def scanWalkList (base : String) : List FSNode → List String
  | [] => []
  | n :: rest => scanWalk base n ++ scanWalkList base rest

end

/-- scan of scan.go: walk the tree rooted at the (symlink-resolved) scan
directory and return a single source unit of type BashDirectory holding the
collected files.  The root directory node itself is visited by Walk but is not
a regular file, so only its entries matter. -/
def scan (scanDir : String) (entries : List FSNode) : List SourceUnit :=
  [{ Name := scanDir, Type' := "BashDirectory", Dir := scanDir,
     Files := scanWalkList scanDir entries }]

mutual

/-- Claim-side characterization for C9: all file nodes of the tree, as
(absolute path, is-regular) pairs, regardless of extension. -/
def treeFiles (base : String) : FSNode → List (String × Bool)
  | FSNode.file name regular => [(base ++ "/" ++ name, regular)]
  | FSNode.dir name entries => treeFilesList (base ++ "/" ++ name) entries

def treeFilesList (base : String) : List FSNode → List (String × Bool)
  | [] => []
  | n :: rest => treeFiles base n ++ treeFilesList base rest

end

mutual

theorem scanWalk_eq (base : String) : ∀ (n : FSNode),
    scanWalk base n
      = ((treeFiles base n).filter (fun p => p.2 && (filepathExt p.1 == ".sh"))).map Prod.fst
  | FSNode.file name regular => by
      cases hr : regular <;> cases hx : (filepathExt (base ++ "/" ++ name) == ".sh") <;>
        simp [scanWalk, treeFiles, hr, hx]
  | FSNode.dir name entries => by
      simpa [scanWalk, treeFiles] using scanWalkList_eq (base ++ "/" ++ name) entries

theorem scanWalkList_eq (base : String) : ∀ (ns : List FSNode),
    scanWalkList base ns
      = ((treeFilesList base ns).filter (fun p => p.2 && (filepathExt p.1 == ".sh"))).map Prod.fst
  | [] => rfl
  | n :: rest => by
      simp [scanWalkList, treeFilesList, List.filter_append, scanWalk_eq base n,
        scanWalkList_eq base rest]

end

/-- C9: for every directory tree, scan returns exactly one source unit, and
its files list contains exactly the regular files under the scan root whose
file extension is ".sh", as paths prefixed by the (absolute, symlink-resolved)
scan root; files with other extensions and non-regular entries are excluded. -/
theorem C9_scan_single_unit_sh_files (scanDir : String) (entries : List FSNode) :
    scan scanDir entries
      = [{ Name := scanDir, Type' := "BashDirectory", Dir := scanDir,
           Files := ((treeFilesList scanDir entries).filter
             (fun p => p.2 && (filepathExt p.1 == ".sh"))).map Prod.fst }] := by
  simp [scan, scanWalkList_eq]

example : scan "/root/dir"
    [FSNode.file "a.sh" true, FSNode.file "b.sh" true, FSNode.file "notes.txt" true]
    = [{ Name := "/root/dir", Type' := "BashDirectory", Dir := "/root/dir",
         Files := ["/root/dir/a.sh", "/root/dir/b.sh"] }] := by
  decide

end SrclibBash
